import Mathlib

/-
Verification of the O1 userspace scheduler core (schedulers/o1/o1_scheduler.cc).

The development shallowly embeds the scheduler's data model and the operations
the specification talks about.  Machine time (absl::Now, absl::Duration) is
modelled as integer nanoseconds passed explicitly; a fatal CHECK failure or a
null-pointer dereference is modelled by returning `none`.  Field and function
names follow the source.
-/

namespace O1Sched

/-- Task run states, mirroring the O1TaskState enumeration used throughout
o1_scheduler.cc (kBlocked, kRunnable, kQueued, kOnCpu). -/
inductive O1TaskState where
  | kBlocked
  | kRunnable
  | kQueued
  | kOnCpu
deriving DecidableEq, Repr

/-- Modelled from the spec: the compile-time slice constant SLICE lives in the
header o1_scheduler.h (not part of the sources here); the spec describes it as
a positive compile-time constant of a few milliseconds.  The value chosen is
3 ms in nanoseconds; no theorem depends on the exact value. -/
def SLICE : Int := 3000000

/-- The per-task record: identity (gtid), lifecycle state, placement, boost
flags and the time-slice accounting fields, as described by the data model and
used by o1_scheduler.cc.  Durations and timestamps are integer nanoseconds. -/
structure O1Task where
  gtid : Nat
  run_state : O1TaskState
  cpu : Int
  preempted : Bool
  prio_boost : Bool
  remaining_time : Int
  runtime_at_last_pick : Int
deriving DecidableEq, Repr

/-- Modelled from the spec: O1Task::SetRemainingTime (declared in the missing
header) assigns remaining_time to the slice constant. -/
def O1Task.SetRemainingTime (t : O1Task) : O1Task :=
  { t with remaining_time := SLICE }

/-- Modelled from the spec: O1Task::SetRuntimeAtLastPick (declared in the
missing header) records the current time. -/
def O1Task.SetRuntimeAtLastPick (t : O1Task) (now : Int) : O1Task :=
  { t with runtime_at_last_pick := now }

/-- O1Task::UpdateRemainingTime (o1_scheduler.cc lines 30-43).  Subtracts
(now - runtime_at_last_pick) from remaining_time; when isOff is false it also
resets runtime_at_last_pick to now and reports whether the slice just expired
(remaining_time <= 0); when isOff is true it reports false.  Returns the
updated task together with the boolean result. -/
def O1Task.UpdateRemainingTime (t : O1Task) (isOff : Bool) (now : Int) :
    O1Task × Bool :=
  let t1 : O1Task :=
    { t with remaining_time := t.remaining_time - (now - t.runtime_at_last_pick) }
  if isOff then
    (t1, false)
  else
    let t2 := t1.SetRuntimeAtLastPick now
    if t2.remaining_time ≤ 0 then (t2, true) else (t2, false)

/-- The dual-array runqueue: the active band aq_ and the expired band eq_,
holding queued tasks in order (front of the list is the front of the band). -/
structure O1Rq where
  aq_ : List O1Task
  eq_ : List O1Task
deriving DecidableEq, Repr

/-- O1Rq::Enqueue (o1_scheduler.cc lines 420-443).  CHECK_GE(task->cpu, 0) and
CHECK_EQ(task->run_state, kRunnable) are modelled as `none` (fatal).  Sets the
task Queued; a positive remaining_time sends it to the active band (front when
prio_boost, else back), otherwise the slice is refilled (SetRemainingTime) and
the task goes to the expired band (front when prio_boost, else back).  Returns
the updated runqueue together with the task object as stored. -/
def O1Rq.Enqueue (rq : O1Rq) (task : O1Task) : Option (O1Rq × O1Task) :=
  if task.cpu < 0 then none
  else if task.run_state ≠ O1TaskState.kRunnable then none
  else
    let task1 : O1Task := { task with run_state := O1TaskState.kQueued }
    if 0 < task1.remaining_time then
      if task1.prio_boost then
        some ({ rq with aq_ := task1 :: rq.aq_ }, task1)
      else
        some ({ rq with aq_ := rq.aq_ ++ [task1] }, task1)
    else
      let task2 := task1.SetRemainingTime
      if task2.prio_boost then
        some ({ rq with eq_ := task2 :: rq.eq_ }, task2)
      else
        some ({ rq with eq_ := rq.eq_ ++ [task2] }, task2)

/-- O1Rq::Swap (o1_scheduler.cc lines 472-475): exchange the two bands. -/
def O1Rq.Swap (rq : O1Rq) : O1Rq :=
  { aq_ := rq.eq_, eq_ := rq.aq_ }

/-- The pop-front step of O1Rq::Dequeue: take the front of the active band,
CHECK that it is queued (fatal otherwise, modelled as the outer `none`), mark
it Runnable and remove it.  An empty active band yields the inner `none`
(the nullptr return). -/
def O1Rq.popFrontActive (rq : O1Rq) : Option (Option (O1Task × O1Rq)) :=
  match rq.aq_ with
  | [] => some none
  | t :: rest =>
    if t.run_state = O1TaskState.kQueued then
      some (some ({ t with run_state := O1TaskState.kRunnable },
                  { rq with aq_ := rest }))
    else none

/-- O1Rq::Dequeue (o1_scheduler.cc lines 477-493).  When the active band is
empty: return nullptr if the expired band is empty too, otherwise Swap the
bands; then pop the front of the (possibly new) active band. -/
def O1Rq.Dequeue (rq : O1Rq) : Option (Option (O1Task × O1Rq)) :=
  if rq.aq_.isEmpty then
    if rq.eq_.isEmpty then some none
    else rq.Swap.popFrontActive
  else rq.popFrontActive

/-- Index of the first element of the list whose gtid equals the given one
(pointer comparison in the source becomes identity-of-gtid here). -/
def idxOfGtid (xs : List O1Task) (g : Nat) : Option Nat :=
  match xs with
  | [] => none
  | t :: rest =>
    if t.gtid = g then some 0 else (idxOfGtid rest g).map (· + 1)

/-- The per-band scan of O1Rq::Erase: when the band is non-empty, first check
whether the sought task sits at the back (positions size-1); otherwise scan
positions 0 .. size-2 from the front.  Returns the band with the found entry
removed, or `none` when the task is not in the band. -/
def bandErase (band : List O1Task) (g : Nat) : Option (List O1Task) :=
  match band.getLast? with
  | none => none
  | some last =>
    if last.gtid = g then some band.dropLast
    else
      match idxOfGtid band.dropLast g with
      | some i => some (band.eraseIdx i)
      | none => none

/-- O1Rq::Erase (o1_scheduler.cc lines 495-539).  CHECK_EQ(task->run_state,
kQueued) is fatal (`none`); then the active band is scanned and, failing that,
the expired band; the removed task is set Runnable; CHECK(false) — fatal —
when the task is in neither band. -/
def O1Rq.Erase (rq : O1Rq) (task : O1Task) : Option (O1Rq × O1Task) :=
  if task.run_state ≠ O1TaskState.kQueued then none
  else
    match bandErase rq.aq_ task.gtid with
    | some aq2 =>
      some ({ rq with aq_ := aq2 }, { task with run_state := O1TaskState.kRunnable })
    | none =>
      match bandErase rq.eq_ task.gtid with
      | some eq2 =>
        some ({ rq with eq_ := eq2 }, { task with run_state := O1TaskState.kRunnable })
      | none => none

/-- Per-CPU state: the current on-CPU task (none models a null pointer), the
runqueue and the preempt_curr flag.  The channel handle carries no scheduler
state relevant to the claims and is omitted. -/
structure CpuState where
  current : Option O1Task
  run_queue : O1Rq
  preempt_curr : Bool
deriving DecidableEq, Repr

namespace O1Scheduler

/-- O1Scheduler::TaskOffCpu (o1_scheduler.cc lines 288-310).  The source
unconditionally evaluates cs->current->UpdateRemainingTime(true) before the
on-CPU check; a null current therefore crashes, modelled by the first `none`.
Then: a task in state kOnCpu must equal current (CHECK, fatal otherwise) and
current is cleared; otherwise CHECK(from_switchto) and CHECK run_state ==
kBlocked; finally the task's run_state becomes kBlocked or kRunnable per the
`blocked` argument. -/
def TaskOffCpu (now : Int) (cs : CpuState) (task : O1Task)
    (blocked from_switchto : Bool) : Option (CpuState × O1Task) :=
  match cs.current with
  | none => none
  | some cur =>
    let p := cur.UpdateRemainingTime true now
    let cs2 : CpuState :=
      { cs with current := some p.1,
                preempt_curr := if p.2 then true else cs.preempt_curr }
    if task.run_state = O1TaskState.kOnCpu then
      if p.1.gtid = task.gtid then
        some ({ cs2 with current := none },
              { p.1 with run_state :=
                  if blocked then O1TaskState.kBlocked else O1TaskState.kRunnable })
      else none
    else
      if from_switchto = true then
        if task.run_state = O1TaskState.kBlocked then
          some (cs2,
                { task with run_state :=
                    if blocked then O1TaskState.kBlocked else O1TaskState.kRunnable })
        else none
      else none

/-- O1Scheduler::CheckPreemptTick (o1_scheduler.cc lines 270-285): when a
current task exists, update its remaining time on-CPU (isOff = false) and set
preempt_curr when the slice expired. -/
def CheckPreemptTick (now : Int) (cs : CpuState) : CpuState :=
  match cs.current with
  | none => cs
  | some cur =>
    let p := cur.UpdateRemainingTime false now
    { cs with current := some p.1,
              preempt_curr := if p.2 then true else cs.preempt_curr }

/-- The preemption step at the top of O1Scheduler::O1Schedule (o1_scheduler.cc
lines 331-340): when preempt_curr is set, and a current task exists, move it
off CPU (not blocked, not from switchto) and enqueue it; in all cases clear
preempt_curr before the task selection that follows. -/
def O1SchedulePreempt (now : Int) (cs : CpuState) : Option CpuState :=
  if cs.preempt_curr then
    match cs.current with
    | none => some { cs with preempt_curr := false }
    | some prev =>
      match TaskOffCpu now cs prev false false with
      | none => none
      | some (cs2, prev2) =>
        match cs2.run_queue.Enqueue prev2 with
        | none => none
        | some (rq2, _) =>
          some { cs2 with run_queue := rq2, preempt_curr := false }
  else some cs

/-- Whether `t` is the current task of `cs` (the pointer comparison
next == cs->current in the source). -/
def currentIs (cs : CpuState) (t : O1Task) : Bool :=
  match cs.current with
  | some c => c.gtid == t.gtid
  | none => false

/-- The commit-failure branch of O1Scheduler::O1Schedule (o1_scheduler.cc
lines 378-389): when the failed target is the CPU's current, move it off CPU;
then set prio_boost on it and enqueue it back into the runqueue. -/
def O1ScheduleCommitFail (now : Int) (cs : CpuState) (next : O1Task) :
    Option CpuState :=
  let step : Option (CpuState × O1Task) :=
    if currentIs cs next then TaskOffCpu now cs next false false
    else some (cs, next)
  match step with
  | none => none
  | some (cs2, next2) =>
    let next3 : O1Task := { next2 with prio_boost := true }
    match cs2.run_queue.Enqueue next3 with
    | none => none
    | some (rq2, _) => some { cs2 with run_queue := rq2 }

/-- Observable side effects performed by O1Scheduler::Migrate, in program
order: channel association, writing task->cpu, enqueueing into the
destination runqueue, pinging the destination agent. -/
inductive MigrateEffect where
  | assocChannel (cpu : Nat) (gtid : Nat)
  | setTaskCpu (cpu : Nat) (gtid : Nat)
  | enqueueTask (cpu : Nat) (gtid : Nat)
  | pingAgent (cpu : Nat)
deriving DecidableEq, Repr

/-- O1Scheduler::Migrate (o1_scheduler.cc lines 109-128).  CHECK_EQ run_state
== kRunnable, CHECK_EQ cpu == -1; CHECK that the channel association succeeds
(assocOk models the AssociateTask return value, false = stale = fatal); then
task->cpu is set, the task is enqueued on the destination runqueue, and the
destination agent is pinged.  The effect trace records this program order. -/
def Migrate (cs : CpuState) (task : O1Task) (cpu : Nat) (assocOk : Bool) :
    Option (CpuState × O1Task × List MigrateEffect) :=
  if task.run_state ≠ O1TaskState.kRunnable then none
  else if task.cpu ≠ -1 then none
  else if assocOk = false then none
  else
    let task2 : O1Task := { task with cpu := (cpu : Int) }
    match cs.run_queue.Enqueue task2 with
    | none => none
    | some (rq2, task3) =>
      some ({ cs with run_queue := rq2 }, task3,
            [MigrateEffect.assocChannel cpu task.gtid,
             MigrateEffect.setTaskCpu cpu task.gtid,
             MigrateEffect.enqueueTask cpu task.gtid,
             MigrateEffect.pingAgent cpu])

/-- The round-robin cursor of O1Scheduler::AssignCpu: the CPU list and the
static iterator `next`, represented as an index into the list where
`next = cpus.length` is the end iterator. -/
structure RRState where
  cpus : List Nat
  next : Nat
deriving DecidableEq, Repr

/-- The cursor's state at program start: `static auto next = end;`. -/
def initRR (cpus : List Nat) : RRState :=
  { cpus := cpus, next := cpus.length }

/-- O1Scheduler::AssignCpu (o1_scheduler.cc lines 97-107): when the cursor is
at the end it wraps to the beginning; the CPU under the cursor is returned and
the cursor advances (`return next++;`).  `none` can only arise on an empty CPU
list. -/
def AssignCpu (s : RRState) : Option (Nat × RRState) :=
  let s1 : RRState := if s.next = s.cpus.length then { s with next := 0 } else s
  match s1.cpus.get? s1.next with
  | none => none
  | some c => some (c, { s1 with next := s1.next + 1 })

/-- The CPUs handed out by M consecutive AssignCpu calls starting from a given
cursor state (stops early only if AssignCpu fails, i.e. on an empty list). -/
def assignN (s : RRState) : Nat → List Nat
  | 0 => []
  | M + 1 =>
    match AssignCpu s with
    | none => []
    | some (c, s2) => c :: assignN s2 M

end O1Scheduler

/-! Concrete states used by the witness theorems. -/

/-- A runnable sample task with positive remaining slice, placed on CPU 0. -/
def sampleRun : O1Task :=
  { gtid := 1, run_state := O1TaskState.kRunnable, cpu := 0,
    preempted := false, prio_boost := false,
    remaining_time := 100, runtime_at_last_pick := 0 }

/-- A queued sample task (as stored in a runqueue band). -/
def sampleQueued : O1Task :=
  { gtid := 2, run_state := O1TaskState.kQueued, cpu := 0,
    preempted := false, prio_boost := false,
    remaining_time := 50, runtime_at_last_pick := 0 }

/-- An empty runqueue. -/
def emptyRq : O1Rq := { aq_ := [], eq_ := [] }

/-- A runqueue whose active band holds the queued sample task. -/
def sampleRq : O1Rq := { aq_ := [sampleQueued], eq_ := [] }

/-- A blocked sample task (target of a from-switchto off-CPU event). -/
def sampleBlocked : O1Task :=
  { gtid := 3, run_state := O1TaskState.kBlocked, cpu := 0,
    preempted := false, prio_boost := false,
    remaining_time := 70, runtime_at_last_pick := 0 }

/-- An on-CPU sample task. -/
def sampleOn : O1Task :=
  { gtid := 4, run_state := O1TaskState.kOnCpu, cpu := 0,
    preempted := false, prio_boost := false,
    remaining_time := 90, runtime_at_last_pick := 0 }

/-- A CPU state with no current task and an empty runqueue. -/
def csNull : CpuState :=
  { current := none, run_queue := emptyRq, preempt_curr := false }

/-- A CPU state running sampleOn, with preempt_curr raised. -/
def csPreempt : CpuState :=
  { current := some sampleOn, run_queue := emptyRq, preempt_curr := true }

/-- A CPU state with no current task, preempt_curr raised. -/
def csPreemptIdle : CpuState :=
  { current := none, run_queue := sampleRq, preempt_curr := true }

/-- An unplaced runnable sample task (cpu = -1), as handed to Migrate. -/
def sampleUnplaced : O1Task :=
  { gtid := 5, run_state := O1TaskState.kRunnable, cpu := -1,
    preempted := false, prio_boost := false,
    remaining_time := 60, runtime_at_last_pick := 0 }

/-- The CPU state produced by TaskOffCpu on csPreempt at time 10. -/
def csAfterOff : CpuState :=
  { current := none, run_queue := emptyRq, preempt_curr := true }

/-- The task produced by TaskOffCpu on csPreempt at time 10. -/
def tAfterOff : O1Task :=
  { gtid := 4, run_state := O1TaskState.kRunnable, cpu := 0,
    preempted := false, prio_boost := false,
    remaining_time := 80, runtime_at_last_pick := 0 }

/-- The remaining time the failed commit target carries into the re-enqueue:
when it was the CPU's current, TaskOffCpu first applies the off-CPU slice
update; otherwise the slice is untouched. -/
def offRemaining (now : Int) (cs : CpuState) (next : O1Task) : Int :=
  if O1Scheduler.currentIs cs next
  then (next.UpdateRemainingTime true now).1.remaining_time
  else next.remaining_time

/-- Commit-failure counterexample: the failed target, with an exhausted
slice. -/
def cexNext : O1Task :=
  { gtid := 6, run_state := O1TaskState.kRunnable, cpu := 0,
    preempted := false, prio_boost := false,
    remaining_time := 0, runtime_at_last_pick := 0 }

/-- Commit-failure counterexample: an unrelated task already queued in the
active band. -/
def cexOther : O1Task :=
  { gtid := 7, run_state := O1TaskState.kQueued, cpu := 0,
    preempted := false, prio_boost := false,
    remaining_time := 40, runtime_at_last_pick := 0 }

/-- Commit-failure counterexample: the CPU state before the failed commit. -/
def cexCs : CpuState :=
  { current := none,
    run_queue := { aq_ := [cexOther], eq_ := [] },
    preempt_curr := false }

/-- The failed target as stored by the recovery enqueue: boosted, refilled,
queued in the expired band. -/
def cexBoosted : O1Task :=
  { gtid := 6, run_state := O1TaskState.kQueued, cpu := 0,
    preempted := false, prio_boost := true,
    remaining_time := SLICE, runtime_at_last_pick := 0 }

/-- The CPU state after the commit-failure recovery on cexCs. -/
def cexCs2 : CpuState :=
  { current := none,
    run_queue := { aq_ := [cexOther], eq_ := [cexBoosted] },
    preempt_curr := false }

/-- The task returned by the dequeue following the failed commit on cexCs:
the unrelated task, not the failed target. -/
def cexPopped : O1Task :=
  { cexOther with run_state := O1TaskState.kRunnable }

/-- The runqueue left after that dequeue. -/
def cexRq3 : O1Rq := { aq_ := [], eq_ := [cexBoosted] }

/-! Theorems for the claims. -/

/-- The off-CPU variant of UpdateRemainingTime reports false on every input. -/
theorem updateOff_snd (t : O1Task) (now : Int) :
    (t.UpdateRemainingTime true now).2 = false := by
  simp [O1Task.UpdateRemainingTime]

/-- C3: UpdateRemainingTime(is_off_cpu) subtracts (now - runtime_at_last_pick)
from remaining_time; with is_off_cpu = false it also resets
runtime_at_last_pick to now and returns true iff the updated remaining_time is
non-positive; with is_off_cpu = true it leaves runtime_at_last_pick unchanged
and returns false. -/
theorem update_remaining_time_spec (t : O1Task) (now : Int) :
    ((t.UpdateRemainingTime true now).1.remaining_time
        = t.remaining_time - (now - t.runtime_at_last_pick)
      ∧ (t.UpdateRemainingTime true now).1.runtime_at_last_pick
        = t.runtime_at_last_pick
      ∧ (t.UpdateRemainingTime true now).2 = false)
    ∧ ((t.UpdateRemainingTime false now).1.remaining_time
        = t.remaining_time - (now - t.runtime_at_last_pick)
      ∧ (t.UpdateRemainingTime false now).1.runtime_at_last_pick = now
      ∧ ((t.UpdateRemainingTime false now).2 = true
          ↔ t.remaining_time - (now - t.runtime_at_last_pick) ≤ 0)) := by
  unfold O1Task.UpdateRemainingTime O1Task.SetRuntimeAtLastPick
  by_cases h : t.remaining_time - (now - t.runtime_at_last_pick) ≤ 0 <;>
    simp [h]

/-- C1: for a Runnable task with cpu >= 0, Enqueue sets the state to Queued
and, when remaining_time > 0, inserts the task into the active band (front if
prio_boost, else back) leaving its slice untouched; otherwise it refills the
slice to SLICE and inserts into the expired band (front if prio_boost, else
back).  The two cases are exhaustive, so every active insertion has
remaining_time > 0 and every expired insertion had remaining_time <= 0 and is
refilled on the spot. -/
theorem enqueue_spec (rq : O1Rq) (t : O1Task)
    (h1 : t.run_state = O1TaskState.kRunnable) (h2 : 0 ≤ t.cpu) :
    ∃ rq2 t2, rq.Enqueue t = some (rq2, t2)
      ∧ t2.run_state = O1TaskState.kQueued
      ∧ t2.gtid = t.gtid ∧ t2.prio_boost = t.prio_boost ∧ t2.cpu = t.cpu
      ∧ (0 < t.remaining_time →
          t2.remaining_time = t.remaining_time
          ∧ rq2.eq_ = rq.eq_
          ∧ rq2.aq_ = (if t.prio_boost then t2 :: rq.aq_ else rq.aq_ ++ [t2]))
      ∧ (t.remaining_time ≤ 0 →
          t2.remaining_time = SLICE
          ∧ rq2.aq_ = rq.aq_
          ∧ rq2.eq_ = (if t.prio_boost then t2 :: rq.eq_ else rq.eq_ ++ [t2])) := by
  unfold O1Rq.Enqueue O1Task.SetRemainingTime
  rw [if_neg (by omega), if_neg (by simp [h1])]
  by_cases hr : 0 < t.remaining_time
  · by_cases hb : t.prio_boost <;>
      simp only [hr, hb, if_true, if_false, ite_true, ite_false] <;>
      exact ⟨_, _, rfl, rfl, rfl, rfl, rfl,
        fun _ => ⟨rfl, rfl, by simp [hb]⟩,
        fun hle => absurd hr (not_lt.mpr hle)⟩
  · by_cases hb : t.prio_boost <;>
      simp only [hr, hb, if_true, if_false, ite_true, ite_false] <;>
      exact ⟨_, _, rfl, rfl, rfl, rfl, rfl,
        fun hlt => hlt.elim,
        fun _ => ⟨rfl, rfl, by simp [hb]⟩⟩

/-- Witness for enqueue_spec at a concrete runnable task and runqueue. -/
theorem enqueue_spec_witness :
    ∃ rq2 t2, emptyRq.Enqueue sampleRun = some (rq2, t2)
      ∧ t2.run_state = O1TaskState.kQueued
      ∧ t2.gtid = sampleRun.gtid ∧ t2.prio_boost = sampleRun.prio_boost
      ∧ t2.cpu = sampleRun.cpu
      ∧ (0 < sampleRun.remaining_time →
          t2.remaining_time = sampleRun.remaining_time
          ∧ rq2.eq_ = emptyRq.eq_
          ∧ rq2.aq_ = (if sampleRun.prio_boost then t2 :: emptyRq.aq_
                       else emptyRq.aq_ ++ [t2]))
      ∧ (sampleRun.remaining_time ≤ 0 →
          t2.remaining_time = SLICE
          ∧ rq2.aq_ = emptyRq.aq_
          ∧ rq2.eq_ = (if sampleRun.prio_boost then t2 :: emptyRq.eq_
                       else emptyRq.eq_ ++ [t2])) :=
  enqueue_spec emptyRq sampleRun (by decide) (by decide)

/-- C2: Dequeue pops the front of the active band; when active is empty and
expired is not, the bands are swapped and the front of the new active band is
popped; when both are empty it returns none.  Every returned task is set
Runnable and removed from the runqueue. -/
theorem dequeue_spec (rq : O1Rq)
    (hq : ∀ t ∈ rq.aq_, t.run_state = O1TaskState.kQueued)
    (he : ∀ t ∈ rq.eq_, t.run_state = O1TaskState.kQueued) :
    (rq.aq_ = [] → rq.eq_ = [] → rq.Dequeue = some none)
    ∧ (∀ t rest, rq.aq_ = t :: rest →
        rq.Dequeue = some (some ({ t with run_state := O1TaskState.kRunnable },
                                 { rq with aq_ := rest })))
    ∧ (∀ t rest, rq.aq_ = [] → rq.eq_ = t :: rest →
        rq.Dequeue = some (some ({ t with run_state := O1TaskState.kRunnable },
                                 { aq_ := rest, eq_ := [] }))) := by
  refine ⟨fun ha hb => ?_, fun t rest ha => ?_, fun t rest ha hb => ?_⟩
  · simp [O1Rq.Dequeue, ha, hb]
  · have ht : t.run_state = O1TaskState.kQueued := hq t (by simp [ha])
    simp [O1Rq.Dequeue, ha, O1Rq.popFrontActive, ht]
  · have ht : t.run_state = O1TaskState.kQueued := he t (by simp [hb])
    simp [O1Rq.Dequeue, ha, hb, O1Rq.Swap, O1Rq.popFrontActive, ht]

/-- Witness for dequeue_spec at a concrete runqueue holding one queued task. -/
theorem dequeue_spec_witness :
    (sampleRq.aq_ = [] → sampleRq.eq_ = [] → sampleRq.Dequeue = some none)
    ∧ (∀ t rest, sampleRq.aq_ = t :: rest →
        sampleRq.Dequeue
          = some (some ({ t with run_state := O1TaskState.kRunnable },
                        { sampleRq with aq_ := rest })))
    ∧ (∀ t rest, sampleRq.aq_ = [] → sampleRq.eq_ = t :: rest →
        sampleRq.Dequeue
          = some (some ({ t with run_state := O1TaskState.kRunnable },
                        { aq_ := rest, eq_ := [] }))) :=
  dequeue_spec sampleRq (by decide) (by decide)

/-- C9: TaskOffCpu never raises preempt_curr: UpdateRemainingTime with
is_off_cpu = true returns false on every input, so the branch assigning
preempt_curr = true in TaskOffCpu is unreachable, and every successful
TaskOffCpu leaves preempt_curr exactly as it found it. -/
theorem taskoffcpu_never_sets_preempt :
    (∀ (t : O1Task) (now : Int), (t.UpdateRemainingTime true now).2 = false)
    ∧ (∀ (now : Int) (cs : CpuState) (task : O1Task) (b f : Bool)
        (cs2 : CpuState) (t2 : O1Task),
        O1Scheduler.TaskOffCpu now cs task b f = some (cs2, t2) →
        cs2.preempt_curr = cs.preempt_curr) := by
  refine ⟨updateOff_snd, ?_⟩
  intro now cs task b f cs2 t2 h
  unfold O1Scheduler.TaskOffCpu at h
  cases hc : cs.current with
  | none => rw [hc] at h; exact absurd h (by simp)
  | some cur =>
    rw [hc] at h
    simp only [updateOff_snd, if_false, Bool.false_eq_true, ite_false] at h
    split at h
    · split at h
      · cases h with
        | refl => rfl
      · exact absurd h (by simp)
    · split at h
      · split at h
        · cases h with
          | refl => rfl
        · exact absurd h (by simp)
      · exact absurd h (by simp)

/-- Witness for taskoffcpu_never_sets_preempt: a successful TaskOffCpu on a
concrete state leaves preempt_curr unchanged. -/
theorem taskoffcpu_never_sets_preempt_witness :
    ∃ cs2 t2,
      O1Scheduler.TaskOffCpu 10 csPreempt sampleOn false false = some (cs2, t2)
      ∧ cs2.preempt_curr = csPreempt.preempt_curr := by
  exact ⟨csAfterOff, tAfterOff, by decide,
    taskoffcpu_never_sets_preempt.2 10 csPreempt sampleOn false false
      csAfterOff tAfterOff (by decide)⟩

/-- C10: in the commit loop's preemption step, a raised preempt_curr is always
cleared before the next-task selection whenever the step completes, and when
the CPU has no current task the step changes nothing but the flag. -/
theorem preempt_step_clears (now : Int) (cs : CpuState)
    (h : cs.preempt_curr = true) :
    (∀ cs2, O1Scheduler.O1SchedulePreempt now cs = some cs2 →
        cs2.preempt_curr = false)
    ∧ (cs.current = none →
        O1Scheduler.O1SchedulePreempt now cs
          = some { cs with preempt_curr := false }) := by
  constructor
  · intro cs2 h2
    unfold O1Scheduler.O1SchedulePreempt at h2
    rw [h, if_pos rfl] at h2
    split at h2
    · have h5 := Option.some.inj h2
      rw [← h5]
    · split at h2
      · exact Option.noConfusion h2
      · split at h2
        · exact Option.noConfusion h2
        · have h5 := Option.some.inj h2
          rw [← h5]
  · intro hc
    unfold O1Scheduler.O1SchedulePreempt
    rw [h, hc]
    rfl

/-- Witness for preempt_step_clears on a concrete state with no current task:
only preempt_curr changes. -/
theorem preempt_step_clears_witness :
    (∀ cs2, O1Scheduler.O1SchedulePreempt 5 csPreemptIdle = some cs2 →
        cs2.preempt_curr = false)
    ∧ (csPreemptIdle.current = none →
        O1Scheduler.O1SchedulePreempt 5 csPreemptIdle
          = some { csPreemptIdle with preempt_curr := false }) :=
  preempt_step_clears 5 csPreemptIdle (by decide)

/-- Erasing the final position of a band drops its last element. -/
theorem eraseIdx_concat (l : List O1Task) (a : O1Task) :
    (l ++ [a]).eraseIdx l.length = l := by
  induction l with
  | nil => rfl
  | cons x xs ih => simpa [List.eraseIdx] using ih

/-- idxOfGtid finds nothing exactly when no element of the band carries the
sought gtid. -/
theorem idxOfGtid_eq_none (xs : List O1Task) (g : Nat) :
    idxOfGtid xs g = none ↔ ∀ t ∈ xs, t.gtid ≠ g := by
  induction xs with
  | nil => simp [idxOfGtid]
  | cons a rest ih =>
    by_cases ha : a.gtid = g
    · simp [idxOfGtid, ha]
    · simp [idxOfGtid, ha, ih]

/-- A hit of idxOfGtid is a position carrying the sought gtid. -/
theorem idxOfGtid_eq_some (xs : List O1Task) (g : Nat) (i : Nat)
    (h : idxOfGtid xs g = some i) :
    ∃ hi : i < xs.length, (xs.get ⟨i, hi⟩).gtid = g := by
  induction xs generalizing i with
  | nil => exact Option.noConfusion h
  | cons a rest ih =>
    by_cases ha : a.gtid = g
    · rw [idxOfGtid, if_pos ha] at h
      have h0 := Option.some.inj h
      subst h0
      exact ⟨Nat.succ_pos _, ha⟩
    · rw [idxOfGtid, if_neg ha] at h
      cases hr : idxOfGtid rest g with
      | none => rw [hr] at h; exact Option.noConfusion h
      | some j =>
        rw [hr] at h
        have h0 := Option.some.inj h
        obtain ⟨hj, hget⟩ := ih j hr
        subst h0
        exact ⟨Nat.succ_lt_succ hj, hget⟩

/-- Computation rule for bandErase on a band written as prefix plus last
element. -/
theorem bandErase_concat (dl : List O1Task) (last : O1Task) (g : Nat) :
    bandErase (dl ++ [last]) g =
      if last.gtid = g then some dl
      else
        match idxOfGtid dl g with
        | some i => some ((dl ++ [last]).eraseIdx i)
        | none => none := by
  unfold bandErase
  rw [List.getLast?_concat, List.dropLast_concat]

/-- bandErase fails exactly when no element of the band carries the gtid. -/
theorem bandErase_eq_none (band : List O1Task) (g : Nat) :
    bandErase band g = none ↔ ∀ t ∈ band, t.gtid ≠ g := by
  rcases List.eq_nil_or_concat band with hb | ⟨dl, last, hdl⟩
  · subst hb; simp [bandErase]
  · subst hdl
    rw [List.concat_eq_append]
    rw [bandErase_concat]
    by_cases hg : last.gtid = g
    · simp only [if_pos hg]
      constructor
      · intro h; exact Option.noConfusion h
      · intro hall; exact absurd hg (hall last (by simp))
    · rw [if_neg hg]
      cases hidx : idxOfGtid dl g with
      | none =>
        constructor
        · intro _ t ht
          rcases List.mem_append.mp ht with h1 | h1
          · exact (idxOfGtid_eq_none _ _).mp hidx t h1
          · rw [List.mem_singleton.mp h1]; exact hg
        · intro _; rfl
      | some i =>
        constructor
        · intro h; exact Option.noConfusion h
        · intro hall
          obtain ⟨hi, hget⟩ := idxOfGtid_eq_some _ _ _ hidx
          exact absurd hget
            (hall (dl.get ⟨i, hi⟩) (List.mem_append_left _ (List.get_mem dl i hi)))

/-- A successful bandErase removes exactly one position carrying the gtid. -/
theorem bandErase_eq_some (band : List O1Task) (g : Nat) (l : List O1Task)
    (h : bandErase band g = some l) :
    ∃ i, ∃ hi : i < band.length,
      (band.get ⟨i, hi⟩).gtid = g ∧ l = band.eraseIdx i := by
  rcases List.eq_nil_or_concat band with hb | ⟨dl, last, hdl⟩
  · subst hb; exact Option.noConfusion h
  · subst hdl
    rw [List.concat_eq_append] at h ⊢
    rw [bandErase_concat] at h
    by_cases hg : last.gtid = g
    · rw [if_pos hg] at h
      have h2 := Option.some.inj h
      have hlen : dl.length < (dl ++ [last]).length := by simp
      refine ⟨dl.length, hlen, ?_, ?_⟩
      · have h3 := List.getElem_concat_length dl last dl.length rfl hlen
        rw [List.get_eq_getElem]
        rw [h3]
        exact hg
      · rw [← h2, eraseIdx_concat]
    · rw [if_neg hg] at h
      cases hidx : idxOfGtid dl g with
      | none => rw [hidx] at h; exact Option.noConfusion h
      | some i =>
        rw [hidx] at h
        have h2 := Option.some.inj h
        obtain ⟨hi, hget⟩ := idxOfGtid_eq_some _ _ _ hidx
        have hi2 : i < (dl ++ [last]).length := by
          simp only [List.length_append, List.length_singleton]
          omega
        refine ⟨i, hi2, ?_, h2.symm⟩
        rw [List.get_eq_getElem, List.getElem_append_left hi]
        exact hget

/-- A Runnable task with a non-negative cpu is always accepted by Enqueue and
ends up stored in exactly one of the two bands. -/
theorem Enqueue_mem (rq : O1Rq) (t : O1Task)
    (h1 : t.run_state = O1TaskState.kRunnable) (h2 : 0 ≤ t.cpu) :
    ∃ rq2 t2, rq.Enqueue t = some (rq2, t2)
      ∧ t2.gtid = t.gtid ∧ t2.cpu = t.cpu
      ∧ t2.run_state = O1TaskState.kQueued
      ∧ t2.prio_boost = t.prio_boost
      ∧ (t2 ∈ rq2.aq_ ∨ t2 ∈ rq2.eq_) := by
  unfold O1Rq.Enqueue O1Task.SetRemainingTime
  rw [if_neg (by omega), if_neg (by simp [h1])]
  by_cases hr : 0 < t.remaining_time <;> by_cases hb : t.prio_boost <;>
    simp only [hr, hb, if_true, if_false, ite_true, ite_false] <;>
    exact ⟨_, _, rfl, rfl, rfl, rfl, rfl, by simp⟩

/-- C6: Migrate demands a Runnable task with cpu == -1 (fatal CHECKs
otherwise) and a successful channel association (fatal when stale); it then
performs, in program order, the channel association, the write of task->cpu,
the enqueue into the destination runqueue and the agent ping, so the
association strictly precedes runqueue visibility. -/
theorem migrate_spec (cs : CpuState) (t : O1Task) (cpu : Nat)
    (assocOk : Bool) :
    ((t.run_state ≠ O1TaskState.kRunnable ∨ t.cpu ≠ -1) →
        O1Scheduler.Migrate cs t cpu assocOk = none)
    ∧ (t.run_state = O1TaskState.kRunnable → t.cpu = -1 → assocOk = false →
        O1Scheduler.Migrate cs t cpu assocOk = none)
    ∧ (t.run_state = O1TaskState.kRunnable → t.cpu = -1 → assocOk = true →
        ∃ rq2 t2,
          O1Scheduler.Migrate cs t cpu assocOk
            = some ({ cs with run_queue := rq2 }, t2,
                [O1Scheduler.MigrateEffect.assocChannel cpu t.gtid,
                 O1Scheduler.MigrateEffect.setTaskCpu cpu t.gtid,
                 O1Scheduler.MigrateEffect.enqueueTask cpu t.gtid,
                 O1Scheduler.MigrateEffect.pingAgent cpu])
          ∧ t2.gtid = t.gtid ∧ t2.cpu = (cpu : Int)
          ∧ t2.run_state = O1TaskState.kQueued
          ∧ (t2 ∈ rq2.aq_ ∨ t2 ∈ rq2.eq_)) := by
  refine ⟨fun hbad => ?_, fun hs hc ha => ?_, fun hs hc ha => ?_⟩
  · unfold O1Scheduler.Migrate
    by_cases h1 : t.run_state = O1TaskState.kRunnable
    · rcases hbad with hbad | hbad
      · exact absurd h1 hbad
      · rw [if_neg (by simp [h1]), if_pos hbad]
    · rw [if_pos h1]
  · unfold O1Scheduler.Migrate
    rw [if_neg (by simp [hs]), if_neg (by simp [hc]), if_pos ha]
  · unfold O1Scheduler.Migrate
    rw [if_neg (by simp [hs]), if_neg (by simp [hc]), if_neg (by simp [ha])]
    obtain ⟨rq2, t2, hEq, hg, hcpu, hq, hpb, hmem⟩ :=
      Enqueue_mem cs.run_queue { t with cpu := (cpu : Int) }
        (by simp [hs]) (by simp)
    simp only [hEq]
    exact ⟨rq2, t2, rfl, hg, hcpu, hq, hmem⟩

/-- Witness for migrate_spec: migrating the unplaced runnable sample task to
CPU 0 with a successful association. -/
theorem migrate_spec_witness :
    ∃ rq2 t2,
      O1Scheduler.Migrate csNull sampleUnplaced 0 true
        = some ({ csNull with run_queue := rq2 }, t2,
            [O1Scheduler.MigrateEffect.assocChannel 0 sampleUnplaced.gtid,
             O1Scheduler.MigrateEffect.setTaskCpu 0 sampleUnplaced.gtid,
             O1Scheduler.MigrateEffect.enqueueTask 0 sampleUnplaced.gtid,
             O1Scheduler.MigrateEffect.pingAgent 0])
      ∧ t2.gtid = sampleUnplaced.gtid ∧ t2.cpu = ((0 : Nat) : Int)
      ∧ t2.run_state = O1TaskState.kQueued
      ∧ (t2 ∈ rq2.aq_ ∨ t2 ∈ rq2.eq_) :=
  (migrate_spec csNull sampleUnplaced 0 true).2.2 (by decide) (by decide) rfl

/-- C8: Erase demands run_state == Queued (fatal otherwise); it scans the
active band and then the expired band, removes the position carrying the
task's gtid, sets the removed task Runnable, and aborts (fatal) when the task
is in neither band.  A hit in the active band leaves the expired band
untouched and conversely. -/
theorem erase_spec (rq : O1Rq) (t : O1Task) :
    (t.run_state ≠ O1TaskState.kQueued → rq.Erase t = none)
    ∧ (t.run_state = O1TaskState.kQueued →
        (∀ s ∈ rq.aq_, s.gtid ≠ t.gtid) → (∀ s ∈ rq.eq_, s.gtid ≠ t.gtid) →
        rq.Erase t = none)
    ∧ (t.run_state = O1TaskState.kQueued →
        (∃ s ∈ rq.aq_, s.gtid = t.gtid) →
        ∃ i, ∃ hi : i < rq.aq_.length,
          (rq.aq_.get ⟨i, hi⟩).gtid = t.gtid
          ∧ rq.Erase t = some ({ rq with aq_ := rq.aq_.eraseIdx i },
                               { t with run_state := O1TaskState.kRunnable }))
    ∧ (t.run_state = O1TaskState.kQueued →
        (∀ s ∈ rq.aq_, s.gtid ≠ t.gtid) →
        (∃ s ∈ rq.eq_, s.gtid = t.gtid) →
        ∃ i, ∃ hi : i < rq.eq_.length,
          (rq.eq_.get ⟨i, hi⟩).gtid = t.gtid
          ∧ rq.Erase t = some ({ rq with eq_ := rq.eq_.eraseIdx i },
                               { t with run_state := O1TaskState.kRunnable })) := by
  refine ⟨fun hs => ?_, fun hs ha he => ?_, fun hs hex => ?_, fun hs ha hex => ?_⟩
  · unfold O1Rq.Erase
    rw [if_pos hs]
  · unfold O1Rq.Erase
    rw [if_neg (by simp [hs])]
    rw [(bandErase_eq_none _ _).mpr ha, (bandErase_eq_none _ _).mpr he]
  · unfold O1Rq.Erase
    rw [if_neg (by simp [hs])]
    cases hA : bandErase rq.aq_ t.gtid with
    | none =>
      obtain ⟨s, hm, hgs⟩ := hex
      exact absurd hgs ((bandErase_eq_none _ _).mp hA s hm)
    | some aq2 =>
      obtain ⟨i, hi, hget, hl⟩ := bandErase_eq_some _ _ _ hA
      subst hl
      exact ⟨i, hi, hget, rfl⟩
  · unfold O1Rq.Erase
    rw [if_neg (by simp [hs])]
    rw [(bandErase_eq_none _ _).mpr ha]
    cases hE : bandErase rq.eq_ t.gtid with
    | none =>
      obtain ⟨s, hm, hgs⟩ := hex
      exact absurd hgs ((bandErase_eq_none _ _).mp hE s hm)
    | some eq2 =>
      obtain ⟨i, hi, hget, hl⟩ := bandErase_eq_some _ _ _ hE
      subst hl
      exact ⟨i, hi, hget, rfl⟩

/-- Witness for erase_spec: erasing the queued sample task from the sample
runqueue removes it from the active band and sets it Runnable. -/
theorem erase_spec_witness :
    ∃ i, ∃ hi : i < sampleRq.aq_.length,
      (sampleRq.aq_.get ⟨i, hi⟩).gtid = sampleQueued.gtid
      ∧ sampleRq.Erase sampleQueued
          = some ({ sampleRq with aq_ := sampleRq.aq_.eraseIdx i },
                  { sampleQueued with run_state := O1TaskState.kRunnable }) :=
  (erase_spec sampleRq sampleQueued).2.2.1 (by decide) ⟨sampleQueued, by decide⟩

/-- C5 (on the defect the spec flags): TaskOffCpu evaluates
cs->current->UpdateRemainingTime before the genuinely-on-CPU check, so an
invocation for a from-switchto blocked task on a CPU whose current is null
dereferences a null pointer (modelled as `none`), even though every CHECK on
the non-dereferencing path would have passed for this input. -/
theorem taskoffcpu_null_current_crash :
    O1Scheduler.TaskOffCpu 100 csNull sampleBlocked false true = none := rfl

/-- TaskOffCpu on the CPU's own current task (on-CPU case): the off-CPU slice
update is applied, current is cleared, and the task comes back Runnable. -/
theorem TaskOffCpu_oncpu (now : Int) (cs : CpuState) (next : O1Task)
    (hc : cs.current = some next) (hs : next.run_state = O1TaskState.kOnCpu) :
    O1Scheduler.TaskOffCpu now cs next false false
      = some ({ cs with current := none },
              { next with run_state := O1TaskState.kRunnable,
                          remaining_time :=
                            next.remaining_time
                              - (now - next.runtime_at_last_pick) }) := by
  unfold O1Scheduler.TaskOffCpu
  rw [hc]
  simp [O1Task.UpdateRemainingTime, hs]

/-- Enqueue of a boosted Runnable task with a positive slice: pushed at the
front of the active band. -/
theorem Enqueue_boost_active (rq : O1Rq) (t : O1Task)
    (h1 : t.run_state = O1TaskState.kRunnable) (h2 : 0 ≤ t.cpu)
    (h3 : 0 < t.remaining_time) (h4 : t.prio_boost = true) :
    rq.Enqueue t
      = some ({ rq with
                  aq_ := { t with run_state := O1TaskState.kQueued } :: rq.aq_ },
              { t with run_state := O1TaskState.kQueued }) := by
  unfold O1Rq.Enqueue
  rw [if_neg (by omega), if_neg (by simp [h1])]
  simp [h3, h4]

/-- C4 (amended): after a failed commit whose target was either the CPU's
current on-CPU task or a freshly dequeued Runnable task, the target ends up
off CPU, boosted, and at the front of the active band — hence the first
candidate of the next dequeue — provided its remaining slice after the
off-CPU update is positive.  (With a non-positive slice it is refilled and
placed at the front of the expired band instead; see the counterexample.) -/
theorem commit_fail_recovery (now : Int) (cs : CpuState) (next : O1Task)
    (hcpu : 0 ≤ next.cpu)
    (hcase : (cs.current = some next ∧ next.run_state = O1TaskState.kOnCpu)
           ∨ (cs.current = none ∧ next.run_state = O1TaskState.kRunnable))
    (hrem : 0 < offRemaining now cs next) :
    ∃ cs2, O1Scheduler.O1ScheduleCommitFail now cs next = some cs2
      ∧ cs2.current = none
      ∧ (∃ t2 rest, cs2.run_queue.aq_ = t2 :: rest
          ∧ t2.gtid = next.gtid ∧ t2.prio_boost = true)
      ∧ (∃ t2 rq3, cs2.run_queue.Dequeue = some (some (t2, rq3))
          ∧ t2.gtid = next.gtid) := by
  rcases hcase with ⟨hc, hs⟩ | ⟨hc, hs⟩
  · have hcur : O1Scheduler.currentIs cs next = true := by
      unfold O1Scheduler.currentIs; rw [hc]; simp
    have hrem2 :
        0 < next.remaining_time - (now - next.runtime_at_last_pick) := by
      have : offRemaining now cs next
          = next.remaining_time - (now - next.runtime_at_last_pick) := by
        unfold offRemaining
        rw [hcur, if_pos rfl]
        rfl
      rw [← this]; exact hrem
    have hoff := TaskOffCpu_oncpu now cs next hc hs
    have henq := Enqueue_boost_active cs.run_queue
      { next with run_state := O1TaskState.kRunnable,
                  remaining_time :=
                    next.remaining_time - (now - next.runtime_at_last_pick),
                  prio_boost := true }
      rfl hcpu hrem2 rfl
    unfold O1Scheduler.O1ScheduleCommitFail
    rw [hcur, if_pos rfl, hoff]
    simp only [henq]
    refine ⟨_, rfl, rfl, ⟨_, _, rfl, rfl, rfl⟩, ?_⟩
    exact ⟨{ next with run_state := O1TaskState.kRunnable,
                       remaining_time :=
                         next.remaining_time - (now - next.runtime_at_last_pick),
                       prio_boost := true },
           { aq_ := cs.run_queue.aq_, eq_ := cs.run_queue.eq_ },
           by simp [O1Rq.Dequeue, O1Rq.popFrontActive], rfl⟩
  · have hcur : O1Scheduler.currentIs cs next = false := by
      unfold O1Scheduler.currentIs; rw [hc]
    have hrem2 : 0 < next.remaining_time := by
      have : offRemaining now cs next = next.remaining_time := by
        unfold offRemaining
        rw [hcur]
        rfl
      rw [← this]; exact hrem
    have henq := Enqueue_boost_active cs.run_queue
      { next with prio_boost := true } (by simp [hs]) hcpu hrem2 rfl
    unfold O1Scheduler.O1ScheduleCommitFail
    rw [hcur]
    simp only [Bool.false_eq_true, if_false, ite_false, henq]
    refine ⟨_, rfl, ?_, ⟨_, _, rfl, rfl, rfl⟩, ?_⟩
    · rw [hc]
    exact ⟨{ next with run_state := O1TaskState.kRunnable,
                       prio_boost := true },
           { aq_ := cs.run_queue.aq_, eq_ := cs.run_queue.eq_ },
           by simp [O1Rq.Dequeue, O1Rq.popFrontActive, hs], rfl⟩

/-- Witness for commit_fail_recovery: a failed commit of the on-CPU sample
task with a positive remaining slice. -/
theorem commit_fail_recovery_witness :
    ∃ cs2, O1Scheduler.O1ScheduleCommitFail 10 csPreempt sampleOn = some cs2
      ∧ cs2.current = none
      ∧ (∃ t2 rest, cs2.run_queue.aq_ = t2 :: rest
          ∧ t2.gtid = sampleOn.gtid ∧ t2.prio_boost = true)
      ∧ (∃ t2 rq3, cs2.run_queue.Dequeue = some (some (t2, rq3))
          ∧ t2.gtid = sampleOn.gtid) :=
  commit_fail_recovery 10 csPreempt sampleOn (by decide)
    (Or.inl ⟨rfl, rfl⟩) (by decide)

/-- C4 counterexample: commit failure for a target with an exhausted slice
(remaining_time = 0, reachable because the off-CPU update can drive the slice
non-positive without raising preempt_curr).  The target ends up boosted at the
front of the EXPIRED band, and the next dequeue returns the unrelated task
from the active band — the failed target is not the first candidate, refuting
the claim's for-every-runqueue-content clause. -/
theorem commit_fail_not_first_candidate :
    O1Scheduler.O1ScheduleCommitFail 0 cexCs cexNext = some cexCs2
    ∧ cexCs2.run_queue.Dequeue = some (some (cexPopped, cexRq3))
    ∧ cexPopped.gtid ≠ cexNext.gtid
    ∧ cexBoosted ∈ cexCs2.run_queue.eq_
    ∧ cexBoosted.gtid = cexNext.gtid
    ∧ cexBoosted.prio_boost = true := by decide

/-- One AssignCpu call from a cursor i <= K: wrap when i = K, return the CPU
at index i mod K, advance the cursor. -/
theorem AssignCpu_step (s : O1Scheduler.RRState) (hK : 0 < s.cpus.length)
    (hle : s.next ≤ s.cpus.length) :
    O1Scheduler.AssignCpu s
      = some (s.cpus.get ⟨s.next % s.cpus.length, Nat.mod_lt _ hK⟩,
              { cpus := s.cpus, next := s.next % s.cpus.length + 1 }) := by
  unfold O1Scheduler.AssignCpu
  by_cases h : s.next = s.cpus.length
  · rw [if_pos h]
    have h0 : s.cpus.get? 0 = some (s.cpus.get ⟨0, hK⟩) := List.get?_eq_get hK
    simp only [h0, h, Nat.mod_self]
  · rw [if_neg h]
    have hlt : s.next < s.cpus.length := lt_of_le_of_ne hle h
    have h0 : s.cpus.get? s.next = some (s.cpus.get ⟨s.next, hlt⟩) :=
      List.get?_eq_get hlt
    simp only [h0, Nat.mod_eq_of_lt hlt]

/-- M consecutive AssignCpu calls from cursor i walk the CPU list cyclically:
the n-th call returns the CPU at index (i + n) mod K. -/
theorem assignN_eq (cpus : List Nat) (hK : 0 < cpus.length) :
    ∀ (M i : Nat), i ≤ cpus.length →
      O1Scheduler.assignN { cpus := cpus, next := i } M
        = (List.range M).map
            (fun n => cpus.get ⟨(i + n) % cpus.length, Nat.mod_lt _ hK⟩) := by
  intro M
  induction M with
  | zero => intro i hi; simp [O1Scheduler.assignN]
  | succ M ih =>
    intro i hi
    have hstep := AssignCpu_step { cpus := cpus, next := i } hK hi
    simp only [O1Scheduler.assignN, hstep]
    rw [ih (i % cpus.length + 1) (Nat.mod_lt _ hK)]
    rw [List.range_succ_eq_map, List.map_cons, List.map_map]
    congr 1
    apply List.map_congr_left
    intro n _
    simp only [Function.comp_apply]
    refine congrArg (List.get cpus) (Fin.ext ?_)
    show (i % cpus.length + 1 + n) % cpus.length
        = (i + Nat.succ n) % cpus.length
    have e1 : i % cpus.length + 1 + n = i % cpus.length + (1 + n) := by omega
    rw [e1, Nat.mod_add_mod]
    have e2 : i + (1 + n) = i + Nat.succ n := by omega
    rw [e2]

/-- How often index j is hit among the first M steps of the cyclic walk
n maps-to cpus[n mod K]: M / K hits, plus one more when j < M mod K. -/
theorem count_range_map_mod (cpus : List Nat) (hK : 0 < cpus.length)
    (hnd : cpus.Nodup) (M j : Nat) (hj : j < cpus.length) :
    ((List.range M).map
        (fun n => cpus.get ⟨n % cpus.length, Nat.mod_lt _ hK⟩)).count
      (cpus.get ⟨j, hj⟩)
      = M / cpus.length + if j < M % cpus.length then 1 else 0 := by
  induction M with
  | zero => simp
  | succ M ih =>
    rw [List.range_succ, List.map_append, List.count_append, ih]
    rw [List.map_singleton, List.count_singleton']
    have hinj : (cpus.get ⟨M % cpus.length, Nat.mod_lt _ hK⟩
        = cpus.get ⟨j, hj⟩) ↔ M % cpus.length = j := by
      rw [hnd.get_inj_iff]
      exact ⟨fun h => congrArg Fin.val h, fun h => Fin.ext h⟩
    have hqr : M / cpus.length * cpus.length + M % cpus.length = M :=
      Nat.div_add_mod' M cpus.length
    have hrK : M % cpus.length < cpus.length := Nat.mod_lt _ hK
    by_cases hr1 : M % cpus.length + 1 = cpus.length
    · have hM1 : M + 1 = cpus.length * (M / cpus.length + 1) := by
        rw [Nat.mul_succ, Nat.mul_comm]
        omega
      have hdiv : (M + 1) / cpus.length = M / cpus.length + 1 := by
        rw [hM1, Nat.mul_div_cancel_left _ hK]
      have hmod : (M + 1) % cpus.length = 0 := by
        rw [hM1, Nat.mul_mod_right]
      simp only [hdiv, hmod, hinj]
      split_ifs <;> omega
    · have hlt : M % cpus.length + 1 < cpus.length := by omega
      have hM1 : M + 1
          = (M % cpus.length + 1) + M / cpus.length * cpus.length := by
        omega
      have hdiv : (M + 1) / cpus.length = M / cpus.length := by
        rw [hM1, Nat.add_mul_div_right _ _ hK, Nat.div_eq_of_lt hlt,
            Nat.zero_add]
      have hmod : (M + 1) % cpus.length = M % cpus.length + 1 := by
        rw [hM1, Nat.add_mul_mod_self_right, Nat.mod_eq_of_lt hlt]
      simp only [hdiv, hmod, hinj]
      split_ifs <;> omega

/-- C7: AssignCpu walks the CPU list in strict round-robin order with a
cursor persisting across calls and wrapping at the end: starting from the
program-start cursor, the n-th of M consecutive calls returns the CPU at
index n mod K, and consequently the counts of any two CPUs over the M calls
differ by at most one. -/
theorem assign_cpu_round_robin (cpus : List Nat) (M j1 j2 : Nat)
    (hK : 0 < cpus.length) (hnd : cpus.Nodup)
    (h1 : j1 < cpus.length) (h2 : j2 < cpus.length) :
    O1Scheduler.assignN (O1Scheduler.initRR cpus) M
      = (List.range M).map
          (fun n => cpus.get ⟨n % cpus.length, Nat.mod_lt _ hK⟩)
    ∧ (O1Scheduler.assignN (O1Scheduler.initRR cpus) M).count
          (cpus.get ⟨j1, h1⟩)
        ≤ (O1Scheduler.assignN (O1Scheduler.initRR cpus) M).count
            (cpus.get ⟨j2, h2⟩) + 1 := by
  have hrun : O1Scheduler.assignN (O1Scheduler.initRR cpus) M
      = (List.range M).map
          (fun n => cpus.get ⟨n % cpus.length, Nat.mod_lt _ hK⟩) := by
    unfold O1Scheduler.initRR
    rw [assignN_eq cpus hK M cpus.length le_rfl]
    apply List.map_congr_left
    intro n _
    exact congrArg (List.get cpus) (Fin.ext (Nat.add_mod_left _ _))
  refine ⟨hrun, ?_⟩
  rw [hrun, count_range_map_mod cpus hK hnd M j1 h1,
      count_range_map_mod cpus hK hnd M j2 h2]
  split_ifs <;> omega

/-- Witness for assign_cpu_round_robin: three distinct CPUs, seven calls. -/
theorem assign_cpu_round_robin_witness :
    O1Scheduler.assignN (O1Scheduler.initRR [10, 20, 30]) 7
      = (List.range 7).map
          (fun n => [10, 20, 30].get ⟨n % [10, 20, 30].length,
                      Nat.mod_lt _ (by decide)⟩)
    ∧ (O1Scheduler.assignN (O1Scheduler.initRR [10, 20, 30]) 7).count
          ([10, 20, 30].get ⟨0, by decide⟩)
        ≤ (O1Scheduler.assignN (O1Scheduler.initRR [10, 20, 30]) 7).count
            ([10, 20, 30].get ⟨2, by decide⟩) + 1 :=
  assign_cpu_round_robin [10, 20, 30] 7 0 2 (by decide) (by decide)
    (by decide) (by decide)

end O1Sched
